import Mathlib

/-!
Verification development for the polygon hill-climbing image approximator
(`src/fractal.ts`).  The scorer (`calculateDifference`, `getMatch`), the
optimizer round (`drawFrame`), the round-robin cursor and the DOM-independent
parts of configuration are embedded shallowly below.  Pixel buffers are flat
lists of interleaved RGBA byte values; JavaScript numbers are modelled by `ℚ`
(all values the claims touch are computed exactly by IEEE doubles at the sizes
involved); the value `NaN`, which arises when `calculateDifference` returns
`undefined`, is modelled by `Option.none` together with the fact that every
`NaN` comparison is false.  Rendering, the DOM and the random source are
external collaborators: each round receives the rendered canvas buffer and the
chosen mutation as explicit inputs.
-/

/-- Absolute per-channel difference, `Math.abs(imageData[i] - canvasData[i])`
on byte values (fractal.ts lines 165-167). -/
def chanDiff (a b : ℕ) : ℕ := ((a : ℤ) - (b : ℤ)).natAbs

/-- The alpha byte stored by `dat[i + 3] = 1/3 * (-differenceR - differenceG -
differenceB + 765)` (fractal.ts line 174).  `dat` is the `Uint8ClampedArray` of
an `ImageData`, so the stored byte is the float value clamped to `[0, 255]` and
rounded to the nearest integer (ties to even).  For a channel-difference sum
`s ≤ 765` the float value is `(765 - s) / 3 ∈ [0, 255]`, whose fractional part
is `0`, `1/3` or `2/3` — never a tie — so the stored byte is the nearest
integer, which equals `(766 - s) / 3` in integer division (proved in
`alphaByte_eq_round` below).  For `s > 765` (impossible for byte inputs) the
float is negative and clamps to `0`. -/
def alphaByte (s : ℕ) : ℕ := if s ≤ 765 then (766 - s) / 3 else 0

/-- The scoring loop of `calculateDifference` (fractal.ts lines 164-176):
walks both buffers four bytes (one RGBA pixel) at a time, accumulating
`|ΔR| + |ΔG| + |ΔB|` (alpha ignored) into the returned difference, and
producing the graph/visualization buffer whose RGB is zeroed and whose alpha
is the stored byte of `(765 - ΔR - ΔG - ΔB) / 3`.  The source only runs this
loop on equal-length buffers whose length is a multiple of 4 (both come from
`getImageData`, hence `width*height*4` bytes); a trailing fragment shorter
than one pixel is ignored here. -/
def differenceLoop : List ℕ → List ℕ → ℕ × List ℕ
  | tr :: tg :: tb :: _ :: ts, cr :: cg :: cb :: _ :: cs =>
    let dR := chanDiff tr cr
    let dG := chanDiff tg cg
    let dB := chanDiff tb cb
    let rest := differenceLoop ts cs
    (dR + dG + dB + rest.1, 0 :: 0 :: 0 :: alphaByte (dR + dG + dB) :: rest.2)
  | _, _ => (0, [])

/-- `calculateDifference` (fractal.ts lines 151-182): when the target and the
rendered buffer differ in length the source logs `console.warn` and executes a
bare `return`, producing `undefined` — modelled as `none`.  Otherwise it
returns the accumulated pixel difference. -/
def calculateDifference (imageData canvasData : List ℕ) : Option ℕ :=
  if imageData.length = canvasData.length then
    some (differenceLoop imageData canvasData).1
  else
    none

/-- The graph/visualization buffer written by the scoring loop of
`calculateDifference` (fractal.ts lines 169-179): the loop fully overwrites
the graph canvas pixels it visits. -/
def visualizeData (imageData canvasData : List ℕ) : List ℕ :=
  (differenceLoop imageData canvasData).2

/-- The match formula of `getMatch` (fractal.ts line 148):
`100 * (1 - diff / this.maxDifference)`. -/
def matchPercentage (diff maxDifference : ℚ) : ℚ :=
  100 * (1 - diff / maxDifference)

/-- `getMatch` (fractal.ts lines 145-149).  When `calculateDifference`
returns `undefined`, the JavaScript expression `100 * (1 - undefined/max)`
evaluates to `NaN`; this is the `none` case. -/
def getMatch (imageData canvasData : List ℕ) (maxDifference : ℚ) : Option ℚ :=
  (calculateDifference imageData canvasData).map fun d =>
    matchPercentage (d : ℚ) maxDifference

/-- An RGBA fill colour of a polygon.  Modelled from the spec: `utils.ts` and
`polygon.ts` are imported by `fractal.ts` but are not under `src/`; per the
spec a Color is four channel values, red/green/blue in `[0, 255]` and an alpha
channel.  Its contents never influence the optimizer's control flow. -/
structure RGBA where
  r : ℕ
  g : ℕ
  b : ℕ
  a : ℚ
deriving DecidableEq

/-- A polygon: an ordered vertex list plus a colour, with a private snapshot
slot.  Modelled from the spec (`polygon.ts` is not under `src/`): the snapshot
is an owned copy of points and colour, created by `stash()`, at most one live
at a time. -/
structure Polygon where
  points : List (ℕ × ℕ)
  colour : RGBA
  stashed : Option (List (ℕ × ℕ) × RGBA)
deriving DecidableEq

/-- Modelled from the spec: `stash()` captures a deep copy of the current
points and colour into the snapshot slot, overwriting any prior snapshot. -/
def Polygon.stash (p : Polygon) : Polygon :=
  { p with stashed := some (p.points, p.colour) }

/-- One atomic random perturbation chosen by `mutate(maxX, maxY)`.  Modelled
from the spec: a single call either replaces one randomly-chosen vertex with a
fresh random point within bounds, or replaces the colour with a fresh random
colour.  The random choice is supplied by the round's caller as an oracle. -/
inductive Mutation where
  | vertex (idx : ℕ) (pt : ℕ × ℕ)
  | colour (c : RGBA)
deriving DecidableEq

/-- Modelled from the spec: `mutate` applies the chosen perturbation in place.
It perturbs only the current points or colour; the snapshot slot is untouched
(required by the spec's stash-mutate-pop round-trip property, §8). -/
def Polygon.mutate (p : Polygon) (m : Mutation) : Polygon :=
  match m with
  | .vertex i pt => { p with points := p.points.set i pt }
  | .colour c => { p with colour := c }

/-- Modelled from the spec: `pop()` restores the stashed points and colour,
consuming the snapshot.  The source never calls `pop()` without a preceding
`stash()`; the no-snapshot case is taken as a no-op (the spec's documented
implementation freedom, §9). -/
def Polygon.pop (p : Polygon) : Polygon :=
  match p.stashed with
  | some s => ⟨s.1, s.2, none⟩
  | none => p

/-- The placeholder a `getD` lookup returns; `drawFrame` only ever indexes
within bounds (`nextMutable < polygons.length` after initialization). -/
def defaultPolygon : Polygon := ⟨[], ⟨0, 0, 0, 0⟩, none⟩

/-- The mutable fields of the `Fractal` class (fractal.ts lines 7-20) that
the optimizer reads or writes.  The canvas/graph/stats DOM handles carry no
algorithmic state and are omitted; `width`/`height` mirror the canvas
dimensions set from the target image. -/
structure FractalState where
  polygons : List Polygon
  nextMutable : ℕ
  imageData : List ℕ
  lastMatch : ℚ
  maxDifference : ℚ
  mutations : ℕ
  breakthroughs : ℕ
  width : ℕ
  height : ℕ
  POLYGON_COUNT : ℕ
  POLYGON_VERTICES : ℕ
deriving DecidableEq

/-- The `Fractal` constructor (fractal.ts lines 22-33). -/
def initialFractal (polygons vertices : ℕ) : FractalState :=
  { polygons := []
    nextMutable := 0
    imageData := []
    lastMatch := 0
    maxDifference := 1
    mutations := 0
    breakthroughs := 0
    width := 0
    height := 0
    POLYGON_COUNT := polygons
    POLYGON_VERTICES := vertices }

/-- The state effect of `configureDom` (fractal.ts lines 108-116): the canvas
and graph are resized to the target image and `maxDifference` is set to
`width * height * 3 * 255`.  It runs once per `match(imageUrl)` run, before
the round loop starts. -/
def configureDom (s : FractalState) (w h : ℕ) : FractalState :=
  { s with
    width := w
    height := h
    maxDifference := ((w * h * 3 * 255 : ℕ) : ℚ) }

/-- The cursor update at the end of every round (fractal.ts lines 87-89):
`if (++this.nextMutable >= this.POLYGON_COUNT) this.nextMutable = 0`. -/
def advanceCursor (count cursor : ℕ) : ℕ :=
  if cursor + 1 ≥ count then 0 else cursor + 1

/-- One optimizer round, `drawFrame` (fractal.ts lines 59-90).  The rendered
composite buffer (`canvasData`) and the random perturbation are the external
inputs of the round.  The selected polygon is stashed and mutated in place;
if the freshly computed match strictly exceeds `lastMatch` the mutation is
kept, `lastMatch` is updated and `breakthroughs++` runs, otherwise (including
the `NaN` match of a dimension mismatch, since `NaN > x` is false) `pop()`
restores the polygon.  `mutations++` and the cursor update run either way. -/
def drawFrame (s : FractalState) (mu : Mutation) (canvasData : List ℕ) : FractalState :=
  let poly := ((s.polygons.getD s.nextMutable defaultPolygon).stash).mutate mu
  match getMatch s.imageData canvasData s.maxDifference with
  | some q =>
    if s.lastMatch < q then
      { s with
        polygons := s.polygons.set s.nextMutable poly
        lastMatch := q
        breakthroughs := s.breakthroughs + 1
        mutations := s.mutations + 1
        nextMutable := advanceCursor s.POLYGON_COUNT s.nextMutable }
    else
      { s with
        polygons := (s.polygons.set s.nextMutable poly).set s.nextMutable poly.pop
        mutations := s.mutations + 1
        nextMutable := advanceCursor s.POLYGON_COUNT s.nextMutable }
  | none =>
      { s with
        polygons := (s.polygons.set s.nextMutable poly).set s.nextMutable poly.pop
        mutations := s.mutations + 1
        nextMutable := advanceCursor s.POLYGON_COUNT s.nextMutable }

/-- A sequence of rounds: `drawFrame` is re-invoked by the `setInterval`
scheduler (fractal.ts line 47); each list entry carries one round's external
inputs. -/
def runRounds (s : FractalState) (rounds : List (Mutation × List ℕ)) : FractalState :=
  rounds.foldl (fun st r => drawFrame st r.1 r.2) s

/-- The polygon indices selected (`this.polygons[this.nextMutable]`,
fractal.ts line 64) over a sequence of rounds. -/
def selectedIndices : FractalState → List (Mutation × List ℕ) → List ℕ
  | _, [] => []
  | s, r :: rs => s.nextMutable :: selectedIndices (drawFrame s r.1 r.2) rs

/-- The cursor values visited over `k` rounds starting from cursor `c`
(helper for the round-robin analysis of `advanceCursor`). -/
def cursorSeq (count : ℕ) : ℕ → ℕ → List ℕ
  | _, 0 => []
  | c, k + 1 => c :: cursorSeq count (advanceCursor count c) k

/-- The cursor value after `k` rounds starting from cursor `c`. -/
def cursorAfter (count : ℕ) : ℕ → ℕ → ℕ
  | c, 0 => c
  | c, k + 1 => cursorAfter count (advanceCursor count c) k

/-- The per-pixel view of a flat RGBA buffer (spec §4.3: one entry per pixel
× 4 channels). -/
def toPixels : List ℕ → List (ℕ × ℕ × ℕ × ℕ)
  | r :: g :: b :: a :: rest => (r, g, b, a) :: toPixels rest
  | _ => []

/-- The spec's formula for `pixelDifference` (§4.3): for every pixel
`|ΔR| + |ΔG| + |ΔB|` (alpha excluded), summed over all pixels. -/
def specPixelDifference (t c : List ℕ) : ℕ :=
  (((toPixels t).zip (toPixels c)).map fun pq =>
    chanDiff pq.1.1 pq.2.1 + chanDiff pq.1.2.1 pq.2.2.1 +
      chanDiff pq.1.2.2.1 pq.2.2.2.1).sum

/-- A buffer of pixels with constant RGB channels `r g b` and the given
per-pixel alpha values (used to state the max-difference bound). -/
def constRGBA (r g b : ℕ) (alphas : List ℕ) : List ℕ :=
  (alphas.map fun a => [r, g, b, a]).flatten

/-- The spec's formula for `visualize` (§4.3), with the alpha value taken as
the byte actually stored by the `Uint8ClampedArray` write: per pixel, RGB
zeroed and alpha the nearest integer to `(765 - ΔR - ΔG - ΔB) / 3`. -/
def specVisualize (t c : List ℕ) : List ℕ :=
  (((toPixels t).zip (toPixels c)).map fun pq =>
    [0, 0, 0, alphaByte (chanDiff pq.1.1 pq.2.1 + chanDiff pq.1.2.1 pq.2.2.1 +
      chanDiff pq.1.2.2.1 pq.2.2.2.1)]).flatten

/-- A concrete one-polygon state whose (empty) target buffer matches the
empty canvas buffer: the first round computes a match of 100 and accepts. -/
def sampleAccept : FractalState :=
  { polygons := [defaultPolygon]
    nextMutable := 0
    imageData := []
    lastMatch := 0
    maxDifference := 1
    mutations := 0
    breakthroughs := 0
    width := 0
    height := 0
    POLYGON_COUNT := 1
    POLYGON_VERTICES := 3 }

/-- A concrete colour replacement used as the round's random perturbation. -/
def sampleMutation : Mutation := Mutation.colour ⟨10, 20, 30, 1⟩

/-- A concrete three-polygon state with the round-robin cursor at 1. -/
def sampleCursor : FractalState :=
  { polygons := [defaultPolygon, defaultPolygon, defaultPolygon]
    nextMutable := 1
    imageData := []
    lastMatch := 0
    maxDifference := 1
    mutations := 0
    breakthroughs := 0
    width := 0
    height := 0
    POLYGON_COUNT := 3
    POLYGON_VERTICES := 3 }

/-- Three rounds of external inputs for `sampleCursor`. -/
def sampleRounds : List (Mutation × List ℕ) :=
  [(Mutation.colour ⟨1, 2, 3, 1⟩, [0]),
   (Mutation.colour ⟨4, 5, 6, 1⟩, [0]),
   (Mutation.colour ⟨7, 8, 9, 1⟩, [0])]

/-- A concrete state whose two-pixel target buffer cannot match the one-pixel
canvas buffer `mismatchCanvas` below. -/
def mismatchState : FractalState :=
  { polygons := [⟨[(1, 1), (2, 2), (3, 3)], ⟨9, 9, 9, 1⟩, none⟩]
    nextMutable := 0
    imageData := [0, 0, 0, 0, 0, 0, 0, 0]
    lastMatch := 42
    maxDifference := 1
    mutations := 5
    breakthroughs := 2
    width := 0
    height := 0
    POLYGON_COUNT := 1
    POLYGON_VERTICES := 3 }

/-- A one-pixel rendered buffer, shorter than `mismatchState.imageData`. -/
def mismatchCanvas : List ℕ := [0, 0, 0, 0]

theorem differenceLoop_self_fst : ∀ buf : List ℕ, (differenceLoop buf buf).1 = 0
  | a :: b :: c :: d :: rest => by
      have ih := differenceLoop_self_fst rest
      simp [differenceLoop, chanDiff, ih]
  | [] => by simp [differenceLoop]
  | [a] => by simp [differenceLoop]
  | [a, b] => by simp [differenceLoop]
  | [a, b, c] => by simp [differenceLoop]

theorem differenceLoop_fst_spec (t c : List ℕ) :
    (differenceLoop t c).1 = specPixelDifference t c := by
  induction t, c using differenceLoop.induct with
  | case1 tr tg tb ta ts cr cg cb ca cs ih =>
      simp [differenceLoop, specPixelDifference, toPixels, ih]
  | case2 t c h =>
      rcases t with _ | ⟨a, _ | ⟨b, _ | ⟨cc, _ | ⟨d, ts⟩⟩⟩⟩ <;>
        rcases c with _ | ⟨x, _ | ⟨y, _ | ⟨z, _ | ⟨w, cs⟩⟩⟩⟩ <;>
        simp_all [specPixelDifference, toPixels, differenceLoop]

theorem differenceLoop_snd_spec (t c : List ℕ) :
    (differenceLoop t c).2 = specVisualize t c := by
  induction t, c using differenceLoop.induct with
  | case1 tr tg tb ta ts cr cg cb ca cs ih =>
      simp [differenceLoop, specVisualize, toPixels, ih]
  | case2 t c h =>
      rcases t with _ | ⟨a, _ | ⟨b, _ | ⟨cc, _ | ⟨d, ts⟩⟩⟩⟩ <;>
        rcases c with _ | ⟨x, _ | ⟨y, _ | ⟨z, _ | ⟨w, cs⟩⟩⟩⟩ <;>
        simp_all [specVisualize, toPixels, differenceLoop]

theorem alphaByte_eq_round (s : ℕ) (hs : s ≤ 765) :
    (alphaByte s : ℤ) = round ((765 - (s : ℚ)) / 3) := by
  obtain ⟨q, r, hqr, hr, hq⟩ :
      ∃ q r, 766 - s = 3 * q + r ∧ r < 3 ∧ (766 - s) / 3 = q :=
    ⟨(766 - s) / 3, (766 - s) % 3, by omega, by omega, rfl⟩
  rw [alphaByte, if_pos hs, hq, round_eq]
  have hZ : (766 : ℚ) - s = 3 * q + r := by
    have : (766 : ℤ) - s = 3 * q + r := by omega
    exact_mod_cast this
  have hr0 : (0 : ℚ) ≤ r := Nat.cast_nonneg r
  have hr2 : (r : ℚ) ≤ 2 := by exact_mod_cast Nat.lt_succ_iff.mp hr
  symm
  rw [Int.floor_eq_iff]
  constructor
  · push_cast
    linarith [hZ, hr0]
  · push_cast
    linarith [hZ, hr2]

theorem drawFrame_nextMutable (s : FractalState) (mu : Mutation) (cv : List ℕ) :
    (drawFrame s mu cv).nextMutable = advanceCursor s.POLYGON_COUNT s.nextMutable := by
  unfold drawFrame
  cases getMatch s.imageData cv s.maxDifference with
  | none => rfl
  | some q =>
      dsimp only
      split <;> rfl

theorem drawFrame_POLYGON_COUNT (s : FractalState) (mu : Mutation) (cv : List ℕ) :
    (drawFrame s mu cv).POLYGON_COUNT = s.POLYGON_COUNT := by
  unfold drawFrame
  cases getMatch s.imageData cv s.maxDifference with
  | none => rfl
  | some q =>
      dsimp only
      split <;> rfl

theorem drawFrame_mutations (s : FractalState) (mu : Mutation) (cv : List ℕ) :
    (drawFrame s mu cv).mutations = s.mutations + 1 := by
  unfold drawFrame
  cases getMatch s.imageData cv s.maxDifference with
  | none => rfl
  | some q =>
      dsimp only
      split <;> rfl

theorem drawFrame_maxDifference (s : FractalState) (mu : Mutation) (cv : List ℕ) :
    (drawFrame s mu cv).maxDifference = s.maxDifference := by
  unfold drawFrame
  cases getMatch s.imageData cv s.maxDifference with
  | none => rfl
  | some q =>
      dsimp only
      split <;> rfl

theorem drawFrame_lastMatch_le (s : FractalState) (mu : Mutation) (cv : List ℕ) :
    s.lastMatch ≤ (drawFrame s mu cv).lastMatch := by
  unfold drawFrame
  cases getMatch s.imageData cv s.maxDifference with
  | none => exact le_refl _
  | some q =>
      dsimp only
      split
      · exact le_of_lt (by assumption)
      · exact le_refl _

theorem cursorSeq_nowrap (count : ℕ) :
    ∀ k c : ℕ, c + k ≤ count → cursorSeq count c k = List.range' c k := by
  intro k
  induction k with
  | zero => intro c _; rfl
  | succ k ih =>
      intro c hc
      rw [cursorSeq]
      cases k with
      | zero => rfl
      | succ k2 =>
          have hadv : advanceCursor count c = c + 1 := by
            rw [advanceCursor, if_neg]
            omega
          rw [hadv, ih (c + 1) (by omega)]
          exact (List.range'_succ c (k2 + 1) 1).symm

theorem cursorAfter_wrap (count : ℕ) :
    ∀ k c : ℕ, c < count → c + k = count → cursorAfter count c k = 0 := by
  intro k
  induction k with
  | zero => intro c h1 h2; omega
  | succ k ih =>
      intro c h1 h2
      rw [cursorAfter]
      cases k with
      | zero =>
          have hadv : advanceCursor count c = 0 := by
            rw [advanceCursor, if_pos]
            omega
          rw [hadv]
          rfl
      | succ k2 =>
          have hadv : advanceCursor count c = c + 1 := by
            rw [advanceCursor, if_neg]
            omega
          rw [hadv]
          exact ih (c + 1) (by omega) (by omega)

theorem cursorSeq_split (count : ℕ) :
    ∀ a b c : ℕ, cursorSeq count c (a + b) =
      cursorSeq count c a ++ cursorSeq count (cursorAfter count c a) b := by
  intro a
  induction a with
  | zero => intro b c; rw [Nat.zero_add]; rfl
  | succ a ih =>
      intro b c
      have h1 : a + 1 + b = (a + b) + 1 := by omega
      rw [h1, cursorSeq, cursorSeq, cursorAfter, ih b (advanceCursor count c)]
      simp

theorem cursorSeq_full (count c : ℕ) (h : c < count) :
    cursorSeq count c count = List.range' c (count - c) ++ List.range c := by
  have h3 : count - c + c = count := by omega
  have h4 : cursorSeq count c count = cursorSeq count c (count - c + c) := by rw [h3]
  rw [h4, cursorSeq_split count (count - c) c c,
      cursorSeq_nowrap count (count - c) c (by omega),
      cursorAfter_wrap count (count - c) c h (by omega),
      cursorSeq_nowrap count c 0 (by omega), List.range_eq_range']

theorem range_append_range' (count c : ℕ) (h : c ≤ count) :
    List.range c ++ List.range' c (count - c) = List.range count := by
  have h5 : count - c + c = count := by omega
  calc List.range c ++ List.range' c (count - c)
      = List.range' 0 c ++ List.range' (0 + c) (count - c) := by
        rw [List.range_eq_range', Nat.zero_add]
    _ = List.range' 0 (count - c + c) := List.range'_append_1 0 c (count - c)
    _ = List.range count := by rw [h5, List.range_eq_range']

theorem cursorSeq_perm (count c : ℕ) (h : c < count) :
    (cursorSeq count c count).Perm (List.range count) := by
  rw [cursorSeq_full count c h, ← range_append_range' count c (le_of_lt h)]
  exact List.perm_append_comm

theorem selectedIndices_eq (rounds : List (Mutation × List ℕ)) :
    ∀ s : FractalState, selectedIndices s rounds =
      cursorSeq s.POLYGON_COUNT s.nextMutable rounds.length := by
  induction rounds with
  | nil => intro s; rfl
  | cons r rs ih =>
      intro s
      rw [selectedIndices, List.length_cons, cursorSeq, ih (drawFrame s r.1 r.2),
          drawFrame_POLYGON_COUNT, drawFrame_nextMutable]

theorem constRGBA_length (r g b : ℕ) (as : List ℕ) :
    (constRGBA r g b as).length = 4 * as.length := by
  induction as with
  | nil => rfl
  | cons a as ih =>
      have e : constRGBA r g b (a :: as) = r :: g :: b :: a :: constRGBA r g b as := rfl
      rw [e]
      simp only [List.length_cons, ih]
      omega

theorem differenceLoop_const (as : List ℕ) :
    ∀ bs : List ℕ, as.length = bs.length →
      (differenceLoop (constRGBA 0 0 0 as) (constRGBA 255 255 255 bs)).1 =
        765 * as.length := by
  induction as with
  | nil =>
      intro bs h
      cases bs with
      | nil => rfl
      | cons b bs => simp at h
  | cons a as ih =>
      intro bs h
      cases bs with
      | nil => simp at h
      | cons b bs =>
          have h2 : as.length = bs.length := by simpa using h
          have e1 : constRGBA 0 0 0 (a :: as) = 0 :: 0 :: 0 :: a :: constRGBA 0 0 0 as := rfl
          have e2 : constRGBA 255 255 255 (b :: bs) =
              255 :: 255 :: 255 :: b :: constRGBA 255 255 255 bs := rfl
          rw [e1, e2]
          simp only [differenceLoop, ih bs h2]
          norm_num [chanDiff]
          omega

/-- C1: over any sequence of optimizer rounds, `lastMatch` is monotonically
non-decreasing — each `drawFrame` round either raises it to a strictly larger
match or leaves it unchanged, whatever match value the scorer produces
(including the `NaN` of a dimension mismatch). -/
theorem lastMatch_monotone :
    (∀ (s : FractalState) (mu : Mutation) (cv : List ℕ),
      s.lastMatch ≤ (drawFrame s mu cv).lastMatch) ∧
    ∀ (s : FractalState) (rounds : List (Mutation × List ℕ)) (i : ℕ),
      (runRounds s (rounds.take i)).lastMatch ≤
        (runRounds s (rounds.take (i + 1))).lastMatch := by
  refine ⟨drawFrame_lastMatch_le, ?_⟩
  intro s rounds i
  by_cases hi : i < rounds.length
  · rw [List.take_succ, List.getElem?_eq_getElem hi]
    simp only [runRounds, Option.toList_some, List.foldl_append, List.foldl_cons,
      List.foldl_nil]
    exact drawFrame_lastMatch_le _ _ _
  · rw [List.take_of_length_le (by omega), List.take_of_length_le (by omega)]

/-- C3: a round's mutation is accepted exactly when the newly computed match
strictly exceeds `lastMatch`; on accept `lastMatch` becomes the new match and
`breakthroughs` is incremented, and the mutated polygon stays; otherwise
(equality included) `pop()` is applied to the selected polygon and `lastMatch`
and `breakthroughs` are unchanged. -/
theorem drawFrame_accept_reject (s : FractalState) (mu : Mutation) (cv : List ℕ)
    (h : s.nextMutable < s.polygons.length) :
    (∀ q, getMatch s.imageData cv s.maxDifference = some q → s.lastMatch < q →
      (drawFrame s mu cv).lastMatch = q ∧
      (drawFrame s mu cv).breakthroughs = s.breakthroughs + 1 ∧
      (drawFrame s mu cv).polygons.getD s.nextMutable defaultPolygon =
        ((s.polygons.getD s.nextMutable defaultPolygon).stash).mutate mu) ∧
    ∀ q, getMatch s.imageData cv s.maxDifference = some q → q ≤ s.lastMatch →
      (drawFrame s mu cv).lastMatch = s.lastMatch ∧
      (drawFrame s mu cv).breakthroughs = s.breakthroughs ∧
      (drawFrame s mu cv).polygons.getD s.nextMutable defaultPolygon =
        (((s.polygons.getD s.nextMutable defaultPolygon).stash).mutate mu).pop := by
  constructor
  · intro q hq hlt
    unfold drawFrame
    rw [hq]
    dsimp only
    rw [if_pos hlt]
    refine ⟨rfl, rfl, ?_⟩
    dsimp only
    rw [List.getD_eq_getElem?_getD, List.getElem?_set_self (by simpa using h),
        Option.getD_some]
  · intro q hq hle
    unfold drawFrame
    rw [hq]
    dsimp only
    rw [if_neg (not_lt.mpr hle)]
    refine ⟨rfl, rfl, ?_⟩
    dsimp only
    rw [List.set_set, List.getD_eq_getElem?_getD, List.getElem?_set_self (by simpa using h),
        Option.getD_some]

theorem drawFrame_accept_reject_witness :
    sampleAccept.nextMutable < sampleAccept.polygons.length ∧
    (drawFrame sampleAccept sampleMutation []).lastMatch = 100 ∧
    (drawFrame sampleAccept sampleMutation []).breakthroughs = 1 := by
  have hm : getMatch sampleAccept.imageData [] sampleAccept.maxDifference = some 100 := by
    norm_num [getMatch, calculateDifference, differenceLoop, matchPercentage, sampleAccept]
  have h := (drawFrame_accept_reject sampleAccept sampleMutation [] (by decide)).1 100 hm
    (by norm_num [sampleAccept])
  exact ⟨by decide, h.1, by simpa [sampleAccept] using h.2.1⟩

/-- C4: on equally-sized interleaved-RGBA buffers, `calculateDifference`
returns exactly the spec's sum over all pixels of `|ΔR| + |ΔG| + |ΔB|`
(alpha excluded), a raw non-negative integer with no normalization. -/
theorem pixelDifference_spec (t c : List ℕ) (h : t.length = c.length) :
    calculateDifference t c = some (specPixelDifference t c) := by
  rw [calculateDifference, if_pos h, differenceLoop_fst_spec]

theorem pixelDifference_spec_witness :
    ([1, 2, 3, 4, 10, 10, 10, 10] : List ℕ).length =
      ([4, 4, 4, 9, 0, 0, 0, 0] : List ℕ).length ∧
    calculateDifference [1, 2, 3, 4, 10, 10, 10, 10] [4, 4, 4, 9, 0, 0, 0, 0] =
      some (specPixelDifference [1, 2, 3, 4, 10, 10, 10, 10] [4, 4, 4, 9, 0, 0, 0, 0]) ∧
    specPixelDifference [1, 2, 3, 4, 10, 10, 10, 10] [4, 4, 4, 9, 0, 0, 0, 0] = 36 :=
  ⟨rfl, pixelDifference_spec _ _ rfl, by decide⟩

/-- C5: after configuration for a `w × h` target image, `maxDifference`
equals `w * h * 3 * 255`, every match is computed as
`100 * (1 - difference / maxDifference)`, and no optimizer round ever writes
`maxDifference` again (it is set once per target image, by `configureDom`). -/
theorem configure_and_match_formula (s : FractalState) (w h : ℕ) :
    (configureDom s w h).maxDifference = ((w * h * 3 * 255 : ℕ) : ℚ) ∧
    (∀ (t cv : List ℕ) (d : ℕ), calculateDifference t cv = some d →
      getMatch t cv (configureDom s w h).maxDifference =
        some (100 * (1 - (d : ℚ) / ((w * h * 3 * 255 : ℕ) : ℚ)))) ∧
    ∀ (s2 : FractalState) (mu : Mutation) (cv : List ℕ),
      (drawFrame s2 mu cv).maxDifference = s2.maxDifference := by
  refine ⟨rfl, ?_, drawFrame_maxDifference⟩
  intro t cv d hd
  rw [getMatch, hd]
  rfl

theorem configure_and_match_formula_witness :
    calculateDifference [0, 0, 0, 0, 0, 0, 0, 0] [0, 0, 0, 0, 0, 0, 0, 0] = some 0 ∧
    getMatch [0, 0, 0, 0, 0, 0, 0, 0] [0, 0, 0, 0, 0, 0, 0, 0]
      (configureDom sampleAccept 2 1).maxDifference = some 100 := by
  have h := (configure_and_match_formula sampleAccept 2 1).2.1
    [0, 0, 0, 0, 0, 0, 0, 0] [0, 0, 0, 0, 0, 0, 0, 0] 0 (by decide)
  refine ⟨by decide, ?_⟩
  rw [h]
  norm_num

/-- C6: starting from any in-range cursor, over `POLYGON_COUNT` consecutive
rounds the selected polygon indices are exactly `cursor, cursor+1, …,
POLYGON_COUNT-1, 0, …, cursor-1` — each index in `[0, POLYGON_COUNT)` exactly
once, in increasing order with a single wrap to 0 — and the cursor advances
every round regardless of accept or reject. -/
theorem roundRobin_coverage (s : FractalState) (rounds : List (Mutation × List ℕ))
    (h1 : s.nextMutable < s.POLYGON_COUNT) (h2 : rounds.length = s.POLYGON_COUNT) :
    selectedIndices s rounds =
      List.range' s.nextMutable (s.POLYGON_COUNT - s.nextMutable) ++
        List.range s.nextMutable ∧
    (selectedIndices s rounds).Perm (List.range s.POLYGON_COUNT) ∧
    ∀ (st : FractalState) (mu : Mutation) (cv : List ℕ),
      (drawFrame st mu cv).nextMutable = advanceCursor st.POLYGON_COUNT st.nextMutable := by
  rw [selectedIndices_eq rounds s, h2]
  exact ⟨cursorSeq_full _ _ h1, cursorSeq_perm _ _ h1, drawFrame_nextMutable⟩

theorem roundRobin_coverage_witness :
    sampleCursor.nextMutable < sampleCursor.POLYGON_COUNT ∧
    sampleRounds.length = sampleCursor.POLYGON_COUNT ∧
    selectedIndices sampleCursor sampleRounds = [1, 2, 0] := by
  refine ⟨by decide, by decide, ?_⟩
  rw [(roundRobin_coverage sampleCursor sampleRounds (by decide) (by decide)).1]
  decide

/-- C7: the pixel difference of any buffer against itself is 0, and a zero
difference yields a match of exactly 100 for any positive `maxDifference`. -/
theorem score_identity (buf : List ℕ) (maxD : ℚ) (h : 0 < maxD) :
    calculateDifference buf buf = some 0 ∧ matchPercentage 0 maxD = 100 := by
  refine ⟨?_, ?_⟩
  · rw [calculateDifference, if_pos rfl, differenceLoop_self_fst]
  · rw [matchPercentage, zero_div]
    norm_num

theorem score_identity_witness :
    (0 : ℚ) < 10 ∧ calculateDifference [5, 6, 7, 8] [5, 6, 7, 8] = some 0 ∧
    matchPercentage 0 10 = 100 := by
  have h := score_identity [5, 6, 7, 8] 10 (by norm_num)
  exact ⟨by norm_num, h.1, h.2⟩

/-- C8: for same-sized all-0-RGB vs all-255-RGB buffers of `w * h` pixels
(alpha arbitrary), the pixel difference equals `maxDifference = w*h*3*255`
and the match percentage is exactly 0. -/
theorem max_difference_bound (s : FractalState) (w h : ℕ) (as bs : List ℕ)
    (h1 : as.length = w * h) (h2 : bs.length = w * h) (h3 : 0 < w * h) :
    calculateDifference (constRGBA 0 0 0 as) (constRGBA 255 255 255 bs) =
      some (w * h * 3 * 255) ∧
    matchPercentage ((w * h * 3 * 255 : ℕ) : ℚ) ((configureDom s w h).maxDifference) = 0 := by
  constructor
  · rw [calculateDifference,
      if_pos (by rw [constRGBA_length, constRGBA_length, h1, h2]),
      differenceLoop_const as bs (h1.trans h2.symm), h1]
    congr 1
    ring
  · have h5 : 0 < w * h * 3 * 255 := Nat.mul_pos (Nat.mul_pos h3 (by norm_num)) (by norm_num)
    have h4 : ((w * h * 3 * 255 : ℕ) : ℚ) ≠ 0 := Nat.cast_ne_zero.mpr h5.ne'
    have e : (configureDom s w h).maxDifference = ((w * h * 3 * 255 : ℕ) : ℚ) := rfl
    rw [matchPercentage, e, div_self h4]
    norm_num

theorem max_difference_bound_witness :
    ([0] : List ℕ).length = 1 * 1 ∧ 0 < 1 * 1 ∧
    calculateDifference (constRGBA 0 0 0 [0]) (constRGBA 255 255 255 [0]) =
      some (1 * 1 * 3 * 255) ∧
    matchPercentage ((1 * 1 * 3 * 255 : ℕ) : ℚ)
      ((configureDom sampleAccept 1 1).maxDifference) = 0 := by
  have h := max_difference_bound sampleAccept 1 1 [0] [0] (by decide) (by decide) (by decide)
  exact ⟨by decide, by decide, h.1, h.2⟩

/-- C2, counterexample: the claim says a length mismatch in
`calculateDifference` fails with a `DimensionMismatch` error and aborts the
run rather than skipping the round.  The code instead logs `console.warn` and
returns `undefined` (here: `none`), and the round completes normally as a
rejection: evaluating a round on a concrete state whose two-pixel target
cannot match the one-pixel canvas shows the counters advance, the cursor
moves on and the loop flows into the next round — nothing aborts. -/
theorem dimensionMismatch_cex :
    calculateDifference mismatchState.imageData mismatchCanvas = none ∧
    (drawFrame mismatchState sampleMutation mismatchCanvas).mutations = 6 ∧
    (drawFrame mismatchState sampleMutation mismatchCanvas).nextMutable = 0 ∧
    (drawFrame mismatchState sampleMutation mismatchCanvas).lastMatch = 42 ∧
    (drawFrame mismatchState sampleMutation mismatchCanvas).breakthroughs = 2 := by
  refine ⟨rfl, ?_, ?_, ?_, ?_⟩ <;> rfl

/-- C2, amended: when the target and rendered buffers differ in length,
`calculateDifference` logs a warning and returns `undefined` (no error value,
no abort), `getMatch` therefore produces `NaN`, and the optimizer completes
the round and continues: the mutations counter increments and the cursor
advances as in every round. -/
theorem mismatch_warns_and_continues (s : FractalState) (mu : Mutation)
    (cv : List ℕ) (maxD : ℚ) (hlen : s.imageData.length ≠ cv.length) :
    calculateDifference s.imageData cv = none ∧
    getMatch s.imageData cv maxD = none ∧
    (drawFrame s mu cv).mutations = s.mutations + 1 ∧
    (drawFrame s mu cv).nextMutable = advanceCursor s.POLYGON_COUNT s.nextMutable := by
  have hcd : calculateDifference s.imageData cv = none := by
    rw [calculateDifference, if_neg hlen]
  exact ⟨hcd, by rw [getMatch, hcd]; rfl, drawFrame_mutations s mu cv,
    drawFrame_nextMutable s mu cv⟩

theorem mismatch_warns_and_continues_witness :
    mismatchState.imageData.length ≠ mismatchCanvas.length ∧
    calculateDifference mismatchState.imageData mismatchCanvas = none ∧
    (drawFrame mismatchState sampleMutation mismatchCanvas).mutations = 6 := by
  have h := mismatch_warns_and_continues mismatchState sampleMutation mismatchCanvas 1
    (by decide)
  exact ⟨by decide, h.1, by simpa [mismatchState] using h.2.2.1⟩

/-- C9, counterexample: the claim says the visualization buffer's alpha is
set to `(765 - ΔR - ΔG - ΔB) / 3` exactly.  At a pixel with channel
difference sum 1 that value is `764/3`, not an integer; the
`Uint8ClampedArray` store rounds it and the buffer actually holds 255. -/
theorem visualize_alpha_cex :
    visualizeData [1, 0, 0, 0] [0, 0, 0, 0] = [0, 0, 0, 255] ∧
    (255 : ℚ) ≠ (765 - ((chanDiff 1 0 + chanDiff 0 0 + chanDiff 0 0 : ℕ) : ℚ)) / 3 := by
  constructor
  · decide
  · norm_num [chanDiff]

/-- C9, amended: the visualization buffer sets, for every pixel, R, G and B
to 0 and alpha to the byte actually stored by the clamped write: the nearest
integer to `(765 - ΔR - ΔG - ΔB) / 3` (the fractional part is never 1/2, so
rounding is unambiguous). -/
theorem visualize_rounded_spec :
    (∀ t c : List ℕ, visualizeData t c = specVisualize t c) ∧
    ∀ s : ℕ, s ≤ 765 → (alphaByte s : ℤ) = round ((765 - (s : ℚ)) / 3) :=
  ⟨fun t c => differenceLoop_snd_spec t c, alphaByte_eq_round⟩

theorem visualize_rounded_spec_witness :
    visualizeData [3, 0, 0, 0] [0, 0, 0, 0] = [0, 0, 0, 254] ∧
    (3 : ℕ) ≤ 765 ∧ (alphaByte 3 : ℤ) = round ((765 - ((3 : ℕ) : ℚ)) / 3) := by
  refine ⟨?_, by norm_num, visualize_rounded_spec.2 3 (by norm_num)⟩
  rw [visualize_rounded_spec.1 [3, 0, 0, 0] [0, 0, 0, 0]]
  decide

/-- C10: when the buffers differ in length during a round, the difference is
`undefined` (`none`), the `NaN > lastMatch` comparison fails, and the round
completes as a rejection: `pop()` is applied to the selected polygon,
`lastMatch` and `breakthroughs` are unchanged, `mutations` still increments,
the cursor still advances, and the loop continues. -/
theorem mismatch_round_rejects (s : FractalState) (mu : Mutation) (cv : List ℕ)
    (hlen : s.imageData.length ≠ cv.length) (h : s.nextMutable < s.polygons.length) :
    calculateDifference s.imageData cv = none ∧
    (drawFrame s mu cv).lastMatch = s.lastMatch ∧
    (drawFrame s mu cv).breakthroughs = s.breakthroughs ∧
    (drawFrame s mu cv).mutations = s.mutations + 1 ∧
    (drawFrame s mu cv).nextMutable = advanceCursor s.POLYGON_COUNT s.nextMutable ∧
    (drawFrame s mu cv).polygons.getD s.nextMutable defaultPolygon =
      (((s.polygons.getD s.nextMutable defaultPolygon).stash).mutate mu).pop := by
  have hcd : calculateDifference s.imageData cv = none := by
    rw [calculateDifference, if_neg hlen]
  have hgm : getMatch s.imageData cv s.maxDifference = none := by
    rw [getMatch, hcd]
    rfl
  refine ⟨hcd, ?_⟩
  unfold drawFrame
  rw [hgm]
  dsimp only
  refine ⟨rfl, rfl, rfl, rfl, ?_⟩
  rw [List.set_set, List.getD_eq_getElem?_getD, List.getElem?_set_self (by simpa using h),
      Option.getD_some]

theorem mismatch_round_rejects_witness :
    mismatchState.imageData.length ≠ mismatchCanvas.length ∧
    mismatchState.nextMutable < mismatchState.polygons.length ∧
    (drawFrame mismatchState sampleMutation mismatchCanvas).polygons.getD
      mismatchState.nextMutable defaultPolygon =
      ⟨[(1, 1), (2, 2), (3, 3)], ⟨9, 9, 9, 1⟩, none⟩ ∧
    (drawFrame mismatchState sampleMutation mismatchCanvas).lastMatch =
      mismatchState.lastMatch := by
  have h := mismatch_round_rejects mismatchState sampleMutation mismatchCanvas
    (by decide) (by decide)
  refine ⟨by decide, by decide, ?_, h.2.1⟩
  rw [h.2.2.2.2.2]
  rfl
